import Mathlib

/- A shallow embedding of `snake_game_gym/envs/snake_game.py` (class
   `SnakeGameEnv`).  Grid positions are the Python two-element lists
   `[row, col]`, modelled as pairs of integers; the snake is a head-first
   list of positions; headings and actions are the Python integer codes.
   The random pairs drawn by `generate_new_random_apple` are supplied as an
   explicit stream `gen : ℕ → Pos`. -/

namespace SnakeGame

/-- A board position `[row, col]` as stored in the Python lists. -/
abbrev Pos := ℤ × ℤ

/-- The mutable fields of `SnakeGameEnv` that the simulation core reads and
writes: `self.snake`, `self.apple`, `self.global_snake_direction`. -/
structure World where
  snake : List Pos
  apple : Pos
  dir : ℤ
deriving DecidableEq

/-- `relative_to_global_direction(global_direction, relative_direction)`. -/
def relativeToGlobalDirection (g a : ℤ) : ℤ :=
  if a = 0 then (if g + 1 = 5 then 0 else g + 1)
  else if a = 2 then (if g - 1 = -1 then 4 else g - 1)
  else g

/-- The body-shift loop of `move_snake`:
`for i in range(len(self.snake) - 1, 0, -1)`, writing index `i` (when it
differs from index `i - 1`) and then continuing downward; index 0 is never
written by the loop. -/
def shiftLoop : List Pos → ℕ → List Pos
  | s, 0 => s
  | s, i + 1 =>
      shiftLoop (if s.getD (i + 1) (0, 0) ≠ s.getD i (0, 0)
                 then s.set (i + 1) (s.getD i (0, 0)) else s) i

/-- The head displacement at the end of `move_snake`; every heading other
than 0, 1, 2 takes the final `else` branch and moves left. -/
def moveHead (dir : ℤ) (p : Pos) : Pos :=
  if dir = 0 then (p.1 - 1, p.2)
  else if dir = 1 then (p.1, p.2 + 1)
  else if dir = 2 then (p.1 + 1, p.2)
  else (p.1, p.2 - 1)

/-- `move_snake` (the Python code indexes `snake[0]`, which always exists in
play; an empty list stays empty here). -/
def moveSnake (snake : List Pos) (dir : ℤ) : List Pos :=
  let s := shiftLoop snake (snake.length - 1)
  s.set 0 (moveHead dir (s.getD 0 (0, 0)))

/-- The `for piece in self.snake:` loop of `check_if_ate_apple`, iterated by
index over a list that grows while being traversed.  `gen k` is the k-th pair
drawn by `generate_new_random_apple` during this call; `fuel` bounds the
number of loop iterations (the Python loop runs past `i` as long as freshly
generated apples keep landing on later body segments; with the iteration
budget exhausted mid-loop the model returns `none`). -/
def ateAppleAux : ℕ → List Pos → Pos → (ℕ → Pos) → ℕ → ℕ → Option (List Pos × Pos × ℕ)
  | 0, snake, apple, _, k, i =>
      if i < snake.length then none else some (snake, apple, k)
  | f + 1, snake, apple, gen, k, i =>
      if i < snake.length then
        if snake.getD i (0, 0) = apple then
          ateAppleAux f (snake ++ [snake.getLastD (0, 0)]) (gen k) gen (k + 1) (i + 1)
        else ateAppleAux f snake apple gen k (i + 1)
      else some (snake, apple, k)

/-- `check_if_ate_apple`: its effect on `self.snake` and `self.apple`,
together with how many random pairs were consumed. -/
def checkIfAteApple (fuel : ℕ) (snake : List Pos) (apple : Pos) (gen : ℕ → Pos) :
    Option (List Pos × Pos × ℕ) :=
  ateAppleAux fuel snake apple gen 0 0

/-- `check_if_hit_wall`. -/
def checkIfHitWall (w : World) : Bool :=
  let hx := (w.snake.headD (0, 0)).1
  let hy := (w.snake.headD (0, 0)).2
  if hx > 14 then true
  else if hy > 14 then true
  else if hx < 0 then true
  else if hy < 0 then true
  else false

/-- `check_if_hit_itself`: `self.snake[0] in self.snake[1:]`. -/
def checkIfHitItself (w : World) : Bool :=
  decide (w.snake.headD (0, 0) ∈ w.snake.tail)

/-- `check_if_won`: `len(self.snake) == self.x_size * self.y_size`
with both sizes fixed to 15 in `__init__`. -/
def checkIfWon (w : World) : Bool :=
  decide (w.snake.length = 15 * 15)

/-- One ray walk: `for distance in range(15): position += step; if hit: break`,
returning the final value of `distance` (14 when the loop ends without a
break).  `fuel` counts the remaining iterations of the bounded `range`. -/
def castRayGo (hit : Pos → Bool) (dy dx : ℤ) : ℕ → Pos → ℕ → ℕ
  | 0, _, d => d
  | f + 1, p, d =>
      let q : Pos := (p.1 + dy, p.2 + dx)
      if hit q then d
      else if f = 0 then d
      else castRayGo hit dy dx f q (d + 1)

/-- The common shape of `apple_ray` / `wall_ray` / `snake_piece_ray`. -/
def castRay (hit : Pos → Bool) (origin : Pos) (dy dx : ℤ) : ℕ :=
  castRayGo hit dy dx 15 origin 0

/-- The eight `(y_behaviour, x_behaviour)` pairs, in the order the three
`*_ray_observation` methods cast them: up, then clockwise. -/
def rayDirs : List (ℤ × ℤ) :=
  [(-1, 0), (-1, 1), (0, 1), (1, 1), (1, 0), (1, -1), (0, -1), (-1, -1)]

/-- The eight raw (unrotated) ray distances from `origin`. -/
def castRays (hit : Pos → Bool) (origin : Pos) : List ℕ :=
  rayDirs.map fun d => castRay hit origin d.1 d.2

/-- `rotate(l, n) = l[-n:] + l[:-n]` (only called with n = 2, 4, 6 on lists
of length 8, where this translation agrees with the Python slicing). -/
def rotate (l : List ℕ) (n : ℕ) : List ℕ :=
  l.drop (l.length - n) ++ l.take (l.length - n)

/-- `rotate_obs`. -/
def rotateObs (dir : ℤ) (obs : List ℕ) : List ℕ :=
  if dir = 0 then obs
  else if dir = 1 then rotate obs 2
  else if dir = 2 then rotate obs 4
  else rotate obs 6

/-- Head position `self.snake[0]` (always present in play). -/
def headPos (w : World) : Pos := w.snake.headD (0, 0)

/-- The break predicate of `apple_ray`: `ray_position == self.apple`. -/
def appleHit (w : World) (p : Pos) : Bool := decide (p = w.apple)

/-- The break predicate of `wall_ray`: the position left the 15 by 15 grid. -/
def wallHitPred (p : Pos) : Bool :=
  decide (p.1 < 0) || decide (p.1 > 14) || decide (p.2 < 0) || decide (p.2 > 14)

/-- The break predicate of `snake_piece_ray`:
`ray_position in self.snake[1:]`. -/
def pieceHit (w : World) (p : Pos) : Bool := decide (p ∈ w.snake.tail)

/-- `apple_ray_observation`. -/
def appleRayObservation (w : World) : List ℕ :=
  rotateObs w.dir (castRays (appleHit w) (headPos w))

/-- `wall_ray_observation`. -/
def wallRayObservation (w : World) : List ℕ :=
  rotateObs w.dir (castRays wallHitPred (headPos w))

/-- `snake_piece_ray_observation`. -/
def snakePieceRayObservation (w : World) : List ℕ :=
  rotateObs w.dir (castRays (pieceHit w) (headPos w))

/-- `generate_state`: `[len(snake)]` then the apple, wall and snake-piece
ray observations, in the order `generate_state` appends them. -/
def generateState (w : World) : List ℕ :=
  w.snake.length :: (appleRayObservation w ++ wallRayObservation w ++ snakePieceRayObservation w)

/-- The two ways a modelled `step` call can fail to produce a result: the
`assert self.action_space.contains(action)` raising, or the iteration budget
of the `check_if_ate_apple` loop running out (the fault carries the world as
it stands when the fault occurs). -/
inductive StepFault
  | invalidAction
  | outOfFuel
deriving DecidableEq

/-- Everything a `step` call produces: the updated world, the four returned
values (observation, reward, done, and the empty info dict which we omit),
and whether `logger.warn` was called. -/
structure StepResult where
  world : World
  obs : List ℕ
  reward : ℚ
  done : Bool
  warned : Bool
deriving DecidableEq

/-- `check_if_ate_apple` falls off its end without a `return` statement, so
the value bound to `ate_apple` in `step` is Python `None`, which is falsy in
the `if ate_apple:` reward test. -/
def ateAppleReturnValue : Bool := false

/-- `step(action)`.  The assert runs before any mutation; then heading
update, movement, apple check, the three terminal checks, observation and
reward assembly, and the `logger.warn` call (issued exactly when `done` is
true).  Rewards are the exact dyadic values 0.0 / 1.0 / 10.0, modelled in ℚ. -/
def stepGame (fuel : ℕ) (gen : ℕ → Pos) (action : ℤ) (w : World) :
    Except (StepFault × World) StepResult :=
  if action = 0 ∨ action = 1 ∨ action = 2 then
    let dir := relativeToGlobalDirection w.dir action
    let snake1 := moveSnake w.snake dir
    match checkIfAteApple fuel snake1 w.apple gen with
    | none => .error (.outOfFuel, ⟨snake1, w.apple, dir⟩)
    | some (snake2, apple2, _) =>
        let w2 : World := ⟨snake2, apple2, dir⟩
        let died := checkIfHitWall w2 || checkIfHitItself w2
        let won := checkIfWon w2
        let obs := generateState w2
        let done := died || won
        let reward : ℚ :=
          if done = false then (if ateAppleReturnValue = true then 10 else 1) else 0
        .ok ⟨w2, obs, reward, done, done⟩
  else .error (.invalidAction, w)

/-- `initial_parts` plus the initial heading set by `reset`. -/
def initialWorld : World := ⟨[(7, 4), (7, 3)], (7, 11), 1⟩

/-- `reset`: reinitialize the world and return the recomputed state. -/
def resetGame : World × List ℕ := (initialWorld, generateState initialWorld)

/-- A respawn stream that always lands at the corner (never on a body in
the scenarios where it is used). -/
def genZero : ℕ → Pos := fun _ => (0, 0)

/-! ### Basic list lemmas used throughout -/

lemma getLastD_mem_of_ne_nil (l : List Pos) (h : l ≠ []) : l.getLastD (0, 0) ∈ l := by
  rw [List.getLastD_eq_getLast?, List.getLast?_eq_getLast l h]
  exact List.getLast_mem h

lemma getD_mem (l : List Pos) (j : ℕ) (h : j < l.length) : l.getD j (0, 0) ∈ l := by
  rw [List.getD_eq_getElem l _ h]
  exact List.getElem_mem h

lemma getD_set_ne (l : List Pos) (v : Pos) (i j : ℕ) (h : i ≠ j) :
    (l.set i v).getD j (0, 0) = l.getD j (0, 0) := by
  rw [List.getD_eq_getElem?_getD, List.getD_eq_getElem?_getD, List.getElem?_set_ne h]

lemma getD_set_eq (l : List Pos) (v : Pos) (i : ℕ) (h : i < l.length) :
    (l.set i v).getD i (0, 0) = v := by
  rw [List.getD_eq_getElem?_getD, List.getElem?_set_eq_of_lt _ h]
  rfl

/-! ### The movement engine -/

lemma shiftLoop_length (i : ℕ) : ∀ s : List Pos, (shiftLoop s i).length = s.length := by
  induction i with
  | zero => intro s; rfl
  | succ i ih =>
      intro s
      simp only [shiftLoop]
      rw [ih]
      split <;> simp

/-- Each pass of the body-shift loop moves every written slot `j ∈ [1, i]`
to the value of slot `j - 1`, and leaves every other slot alone.  The
equality test in the loop does not change this functional description: when
the test fails the two slots were already equal. -/
lemma shiftLoop_getD (i : ℕ) :
    ∀ s : List Pos, i < s.length → ∀ j : ℕ,
      (shiftLoop s i).getD j (0, 0) =
        if 1 ≤ j ∧ j ≤ i then s.getD (j - 1) (0, 0) else s.getD j (0, 0) := by
  induction i with
  | zero =>
      intro s _ j
      rw [if_neg (by omega)]
      rfl
  | succ i ih =>
      intro s hs j
      by_cases hcond : s.getD (i + 1) (0, 0) = s.getD i (0, 0)
      · have hstep : shiftLoop s (i + 1) = shiftLoop s i := by
          simp only [shiftLoop]
          rw [if_neg (by simpa using hcond)]
        rw [hstep, ih s (by omega) j]
        by_cases h1 : 1 ≤ j ∧ j ≤ i
        · rw [if_pos h1, if_pos (by omega)]
        · rw [if_neg h1]
          by_cases h2 : 1 ≤ j ∧ j ≤ i + 1
          · have hj : j = i + 1 := by omega
            rw [if_pos h2, hj]
            simpa using hcond
          · rw [if_neg h2]
      · have hstep :
            shiftLoop s (i + 1) = shiftLoop (s.set (i + 1) (s.getD i (0, 0))) i := by
          simp only [shiftLoop]
          rw [if_pos hcond]
        rw [hstep, ih _ (by simpa using Nat.lt_of_succ_lt hs) j]
        by_cases h1 : 1 ≤ j ∧ j ≤ i
        · rw [if_pos h1, if_pos (by omega), getD_set_ne _ _ _ _ (by omega)]
        · by_cases h2 : j = i + 1
          · subst h2
            rw [if_neg h1, if_pos (by omega), getD_set_eq _ _ _ hs]
            simp
          · rw [if_neg h1, if_neg (by omega), getD_set_ne _ _ _ _ (by omega)]

lemma moveSnake_length (s : List Pos) (d : ℤ) : (moveSnake s d).length = s.length := by
  simp [moveSnake, shiftLoop_length]

lemma moveSnake_getD_zero (s : List Pos) (d : ℤ) (h : s ≠ []) :
    (moveSnake s d).getD 0 (0, 0) = moveHead d (s.getD 0 (0, 0)) := by
  have hlen : 0 < s.length := List.length_pos.mpr h
  have h0 : (shiftLoop s (s.length - 1)).getD 0 (0, 0) = s.getD 0 (0, 0) := by
    rw [shiftLoop_getD (s.length - 1) s (by omega) 0, if_neg (by omega)]
  simp only [moveSnake]
  rw [getD_set_eq _ _ _ (by rw [shiftLoop_length]; omega), h0]

lemma moveSnake_getD (s : List Pos) (d : ℤ) (j : ℕ) (h1 : 1 ≤ j) (h2 : j < s.length) :
    (moveSnake s d).getD j (0, 0) = s.getD (j - 1) (0, 0) := by
  simp only [moveSnake]
  rw [getD_set_ne _ _ _ _ (by omega)]
  rw [shiftLoop_getD (s.length - 1) s (by omega) j, if_pos (by omega)]

/-- C5: the movement phase shifts, from the tail toward the head, each
segment that differs from its predecessor onto the predecessor's (old)
position and leaves segments equal to their predecessor untouched; then the
head moves one tile according to the heading (0 row−1, 1 col+1, 2 row+1,
3 or 4 col−1); in particular with heading Right and action 1 the head row is
unchanged and the head column grows by exactly 1. -/
theorem moveSnake_shift_and_head (s : List Pos) (d : ℤ)
    (hd : d = 0 ∨ d = 1 ∨ d = 2 ∨ d = 3 ∨ d = 4) :
    (∀ j : ℕ, 1 ≤ j → j < s.length →
       (moveSnake s d).getD j (0, 0) =
         if s.getD j (0, 0) ≠ s.getD (j - 1) (0, 0)
         then s.getD (j - 1) (0, 0) else s.getD j (0, 0)) ∧
    (s ≠ [] →
       (moveSnake s d).getD 0 (0, 0) =
         (if d = 0 then ((s.getD 0 (0, 0)).1 - 1, (s.getD 0 (0, 0)).2)
          else if d = 1 then ((s.getD 0 (0, 0)).1, (s.getD 0 (0, 0)).2 + 1)
          else if d = 2 then ((s.getD 0 (0, 0)).1 + 1, (s.getD 0 (0, 0)).2)
          else ((s.getD 0 (0, 0)).1, (s.getD 0 (0, 0)).2 - 1))) ∧
    (relativeToGlobalDirection 1 1 = 1 ∧
     (s ≠ [] → ((moveSnake s 1).getD 0 (0, 0)).1 = (s.getD 0 (0, 0)).1 ∧
               ((moveSnake s 1).getD 0 (0, 0)).2 = (s.getD 0 (0, 0)).2 + 1)) := by
  refine ⟨?_, ?_, ?_, ?_⟩
  · intro j hj1 hj2
    rw [moveSnake_getD s d j hj1 hj2]
    split
    · rfl
    · next h => exact (not_not.mp h).symm
  · intro h
    rw [moveSnake_getD_zero s d h]
    rfl
  · rfl
  · intro h
    rw [moveSnake_getD_zero s 1 h]
    simp [moveHead]

/-- Witness for `moveSnake_shift_and_head` at the initial body, heading
Right, tail index 1. -/
theorem moveSnake_shift_and_head_check :
    ((moveSnake [(7, 4), (7, 3)] 1).getD 1 (0, 0) =
       if ([(7, 4), (7, 3)] : List Pos).getD 1 (0, 0) ≠
            ([(7, 4), (7, 3)] : List Pos).getD 0 (0, 0)
       then ([(7, 4), (7, 3)] : List Pos).getD 0 (0, 0)
       else ([(7, 4), (7, 3)] : List Pos).getD 1 (0, 0)) ∧
    (moveSnake [(7, 4), (7, 3)] 1).getD 0 (0, 0) =
      (if (1 : ℤ) = 0 then ((([(7, 4), (7, 3)] : List Pos).getD 0 (0, 0)).1 - 1,
                            (([(7, 4), (7, 3)] : List Pos).getD 0 (0, 0)).2)
       else if (1 : ℤ) = 1 then ((([(7, 4), (7, 3)] : List Pos).getD 0 (0, 0)).1,
                                 (([(7, 4), (7, 3)] : List Pos).getD 0 (0, 0)).2 + 1)
       else if (1 : ℤ) = 2 then ((([(7, 4), (7, 3)] : List Pos).getD 0 (0, 0)).1 + 1,
                                 (([(7, 4), (7, 3)] : List Pos).getD 0 (0, 0)).2)
       else ((([(7, 4), (7, 3)] : List Pos).getD 0 (0, 0)).1,
             (([(7, 4), (7, 3)] : List Pos).getD 0 (0, 0)).2 - 1)) ∧
    relativeToGlobalDirection 1 1 = 1 ∧
    ((moveSnake [(7, 4), (7, 3)] 1).getD 0 (0, 0)).1 =
        (([(7, 4), (7, 3)] : List Pos).getD 0 (0, 0)).1 ∧
    ((moveSnake [(7, 4), (7, 3)] 1).getD 0 (0, 0)).2 =
        (([(7, 4), (7, 3)] : List Pos).getD 0 (0, 0)).2 + 1 :=
  ⟨(moveSnake_shift_and_head [(7, 4), (7, 3)] 1 (by norm_num)).1 1 (by decide) (by decide),
   (moveSnake_shift_and_head [(7, 4), (7, 3)] 1 (by norm_num)).2.1 (by decide),
   (moveSnake_shift_and_head [(7, 4), (7, 3)] 1 (by norm_num)).2.2.1,
   ((moveSnake_shift_and_head [(7, 4), (7, 3)] 1 (by norm_num)).2.2.2 (by decide)).1,
   ((moveSnake_shift_and_head [(7, 4), (7, 3)] 1 (by norm_num)).2.2.2 (by decide)).2⟩

/-- C7: heading code 4 behaves exactly like heading 3 (Left), both in the
movement engine and in the egocentric rotation of the sensor array. -/
theorem heading_four_behaves_as_three :
    (∀ s : List Pos, moveSnake s 4 = moveSnake s 3) ∧
    (∀ l : List ℕ, rotateObs 4 l = rotateObs 3 l) := by
  constructor
  · intro s
    simp [moveSnake, moveHead]
  · intro l
    simp [rotateObs]

/-- C8: on headings 0..4, action 0 increments the heading with 5 wrapping
to 0, action 2 decrements it with −1 wrapping to 4, and action 1 is the
identity. -/
theorem turn_increments_decrements (g : ℤ)
    (hg : g = 0 ∨ g = 1 ∨ g = 2 ∨ g = 3 ∨ g = 4) :
    relativeToGlobalDirection g 0 = (if g = 4 then 0 else g + 1) ∧
    relativeToGlobalDirection g 2 = (if g = 0 then 4 else g - 1) ∧
    relativeToGlobalDirection g 1 = g := by
  rcases hg with rfl | rfl | rfl | rfl | rfl <;> norm_num [relativeToGlobalDirection]

/-- Witness for `turn_increments_decrements` at the wrapping heading 4. -/
theorem turn_increments_decrements_check :
    ((4 : ℤ) = 0 ∨ (4 : ℤ) = 1 ∨ (4 : ℤ) = 2 ∨ (4 : ℤ) = 3 ∨ (4 : ℤ) = 4) ∧
    (relativeToGlobalDirection 4 0 = (if (4 : ℤ) = 4 then 0 else 4 + 1) ∧
     relativeToGlobalDirection 4 2 = (if (4 : ℤ) = 0 then 4 else 4 - 1) ∧
     relativeToGlobalDirection 4 1 = 4) :=
  ⟨by norm_num, turn_increments_decrements 4 (by norm_num)⟩

/-- C10: a `step` call with an action outside {0, 1, 2} fails on the
precondition assert, and the fault happens before any mutation: the world
carried out of the failed call is exactly the input world. -/
theorem invalid_action_faults_state_unchanged (fuel : ℕ) (gen : ℕ → Pos)
    (a : ℤ) (w : World) (ha : ¬(a = 0 ∨ a = 1 ∨ a = 2)) :
    stepGame fuel gen a w = .error (.invalidAction, w) := by
  simp only [stepGame]
  rw [if_neg ha]

/-- Witness for `invalid_action_faults_state_unchanged` at action 7. -/
theorem invalid_action_faults_state_unchanged_check :
    ¬((7 : ℤ) = 0 ∨ (7 : ℤ) = 1 ∨ (7 : ℤ) = 2) ∧
    stepGame 10 genZero 7 initialWorld = .error (.invalidAction, initialWorld) :=
  ⟨by norm_num,
   invalid_action_faults_state_unchanged 10 genZero 7 initialWorld (by norm_num)⟩

/-- C1 (code evaluation): on a growth tick that does not terminate the
episode, `step` returns reward 1.0, not 10.0 — `check_if_ate_apple` has no
`return` statement, so the `if ate_apple:` branch that would set 10.0 can
never run.  Here the body grows from 2 to 3 segments, `done` is false, and
the reward is 1. -/
theorem step_growth_reward_one :
    (stepGame 10 genZero 1 ⟨[(7, 10), (7, 9)], (7, 11), 1⟩).toOption.map
        (fun r => (r.world.snake.length, r.done, r.reward)) = some (3, false, 1) ∧
    (1 : ℚ) ≠ 10 := by
  constructor
  · rfl
  · norm_num

/-! ### Growth and spawn -/

/-- If no slot from `i` on matches the apple, the loop just runs to the end
and changes nothing. -/
lemma ateAppleAux_no_hit (f : ℕ) :
    ∀ (s : List Pos) (a : Pos) (g : ℕ → Pos) (k i : ℕ),
      s.length ≤ i + f →
      (∀ j : ℕ, i ≤ j → j < s.length → s.getD j (0, 0) ≠ a) →
      ateAppleAux f s a g k i = some (s, a, k) := by
  induction f with
  | zero =>
      intro s a g k i hf _
      simp only [ateAppleAux]
      rw [if_neg (by omega)]
  | succ f ih =>
      intro s a g k i hf hnone
      simp only [ateAppleAux]
      by_cases hi : i < s.length
      · rw [if_pos hi, if_neg (hnone i (by omega) hi)]
        exact ih s a g k (i + 1) (by omega) (fun j hj hj2 => hnone j (by omega) hj2)
      · rw [if_neg hi]

/-- If some slot from `i` on matches the apple and every freshly generated
apple misses the body, the loop appends exactly one duplicate of the last
segment, consumes exactly one random pair, and then runs to the end. -/
lemma ateAppleAux_first_hit (f : ℕ) :
    ∀ (s : List Pos) (a : Pos) (g : ℕ → Pos) (k i : ℕ),
      (∃ j : ℕ, i ≤ j ∧ j < s.length ∧ s.getD j (0, 0) = a) →
      (∀ m : ℕ, g m ∉ s) →
      s.length + 1 ≤ i + f →
      ateAppleAux f s a g k i = some (s ++ [s.getLastD (0, 0)], g k, k + 1) := by
  induction f with
  | zero =>
      intro s a g k i hhit _ hf
      obtain ⟨j, hj1, hj2, _⟩ := hhit
      omega
  | succ f ih =>
      intro s a g k i hhit hg hf
      obtain ⟨j, hj1, hj2, hj3⟩ := hhit
      have hi : i < s.length := by omega
      have hne : s ≠ [] := by
        intro h
        rw [h] at hj2
        simp at hj2
      simp only [ateAppleAux]
      rw [if_pos hi]
      by_cases hcur : s.getD i (0, 0) = a
      · rw [if_pos hcur]
        rw [ateAppleAux_no_hit f (s ++ [s.getLastD (0, 0)]) (g k) g (k + 1) (i + 1)
              (by simp; omega)
              ?_]
        intro j' hj'1 hj'2 hEq
        have hmem : (s ++ [s.getLastD (0, 0)]).getD j' (0, 0) ∈ s := by
          have := getD_mem (s ++ [s.getLastD (0, 0)]) j' hj'2
          rcases List.mem_append.mp this with h | h
          · exact h
          · rw [List.mem_singleton.mp h]
            exact getLastD_mem_of_ne_nil s hne
        rw [hEq] at hmem
        exact hg k hmem
      · rw [if_neg hcur]
        have hj' : i + 1 ≤ j := by
          rcases Nat.eq_or_lt_of_le hj1 with h | h
          · exact absurd (h ▸ hj3) hcur
          · omega
        exact ih s a g k (i + 1) ⟨j, hj', hj2, hj3⟩ hg (by omega)

/-- C3 (amended): on a tick where some body segment equals the apple, if
every freshly generated apple misses the body, then the growth phase
appends exactly one duplicate of the last segment (length grows by exactly
one) and consumes exactly one random pair. -/
theorem growth_adds_one_segment (s : List Pos) (a : Pos) (g : ℕ → Pos) (fuel : ℕ)
    (ha : a ∈ s) (hg : ∀ m : ℕ, g m ∉ s) (hf : s.length + 1 ≤ fuel) :
    checkIfAteApple fuel s a g = some (s ++ [s.getLastD (0, 0)], g 0, 1) ∧
    (s ++ [s.getLastD (0, 0)]).length = s.length + 1 := by
  constructor
  · obtain ⟨n, hn, hval⟩ := List.mem_iff_getElem.mp ha
    refine ateAppleAux_first_hit fuel s a g 0 0 ⟨n, by omega, hn, ?_⟩ hg (by omega)
    rw [List.getD_eq_getElem s _ hn, hval]
  · simp

/-- A respawn stream used by the C3 witness: always off the body. -/
def genNine : ℕ → Pos := fun _ => (9, 9)

/-- Witness for `growth_adds_one_segment` at a concrete two-segment body
whose head sits on the apple. -/
theorem growth_adds_one_segment_check :
    checkIfAteApple 5 [(0, 0), (1, 0)] (0, 0) genNine =
        some ([(0, 0), (1, 0)] ++ [([(0, 0), (1, 0)] : List Pos).getLastD (0, 0)],
              genNine 0, 1) ∧
    (([(0, 0), (1, 0)] : List Pos) ++
        [([(0, 0), (1, 0)] : List Pos).getLastD (0, 0)]).length =
        ([(0, 0), (1, 0)] : List Pos).length + 1 :=
  growth_adds_one_segment [(0, 0), (1, 0)] (0, 0) genNine 5 (by decide)
    (fun m => by simp [genNine]) (by decide)

/-- A respawn stream whose first pair lands on the (moved-up) body. -/
def genC3 : ℕ → Pos := fun k => if k = 0 then (1, 0) else (9, 9)

/-- C3 counterexample: with the respawned apple landing on a later body
segment, the same growth phase appends twice — the post-phase length is 4,
not the pre-length 2 plus 1.  So growth by exactly one segment does not hold
for every outcome of the random apple respawn. -/
theorem growth_can_add_two_segments :
    (checkIfAteApple 10 [(0, 0), (1, 0)] (0, 0) genC3).map
        (fun r => r.1.length) = some 4 ∧ 4 ≠ 2 + 1 := by
  constructor
  · rfl
  · decide

/-- C4 (code evaluation): a step taken while the episode is already Done can
complete with no warning at all.  First call: from a live world the step ends
with `done = true` (self collision) and the warning fires, landing in the
world `⟨[(7,5),(7,4),(7,5)], (0,0), 1⟩` — the episode is now Done.  Second
call: stepping that Done world returns `done = false` and the warning does
not fire, because the code gates `logger.warn` on the done flag computed by
the current call rather than on the episode already being Done. -/
theorem step_in_done_state_no_warning :
    (stepGame 10 genZero 1 ⟨[(7, 4), (7, 5), (7, 5)], (0, 0), 1⟩).toOption.map
        (fun r => (r.world, r.done, r.warned)) =
      some (⟨[(7, 5), (7, 4), (7, 5)], (0, 0), 1⟩, true, true) ∧
    (stepGame 10 genZero 1 ⟨[(7, 5), (7, 4), (7, 5)], (0, 0), 1⟩).toOption.map
        (fun r => (r.done, r.warned)) = some (false, false) := by
  constructor
  · rfl
  · rfl

/-! ### The episode controller -/

/-- Inversion of a successful `step` call: what each returned field is in
terms of the intermediate (post-movement, post-growth) world. -/
lemma stepGame_ok (fuel : ℕ) (gen : ℕ → Pos) (a : ℤ) (w : World) (r : StepResult)
    (h : stepGame fuel gen a w = .ok r) :
    r.world.dir = relativeToGlobalDirection w.dir a ∧
    (∃ k : ℕ,
       checkIfAteApple fuel (moveSnake w.snake (relativeToGlobalDirection w.dir a))
         w.apple gen = some (r.world.snake, r.world.apple, k)) ∧
    r.obs = generateState r.world ∧
    r.done = ((checkIfHitWall r.world || checkIfHitItself r.world) || checkIfWon r.world) ∧
    r.warned = r.done ∧
    r.reward =
      (if r.done = false then (if ateAppleReturnValue = true then (10 : ℚ) else 1)
       else 0) := by
  simp only [stepGame] at h
  split at h
  · split at h
    · exact absurd h (by simp)
    · next s2 a2 k2 heq =>
        rw [Except.ok.injEq] at h
        subst h
        exact ⟨rfl, ⟨k2, heq⟩, rfl, rfl, rfl, rfl⟩
  · exact absurd h (by simp)

/-- `check_if_hit_wall` is the out-of-grid test on the head. -/
lemma checkIfHitWall_iff (w : World) :
    checkIfHitWall w = true ↔
      ¬(0 ≤ (headPos w).1 ∧ (headPos w).1 ≤ 14 ∧
        0 ≤ (headPos w).2 ∧ (headPos w).2 ≤ 14) := by
  simp only [checkIfHitWall, headPos]
  constructor
  · intro h hP
    obtain ⟨p1, p2, p3, p4⟩ := hP
    rw [if_neg (by omega), if_neg (by omega), if_neg (by omega), if_neg (by omega)] at h
    exact absurd h (by simp)
  · intro hP
    by_cases h1 : (w.snake.headD (0, 0)).1 > 14
    · rw [if_pos h1]
    · rw [if_neg h1]
      by_cases h2 : (w.snake.headD (0, 0)).2 > 14
      · rw [if_pos h2]
      · rw [if_neg h2]
        by_cases h3 : (w.snake.headD (0, 0)).1 < 0
        · rw [if_pos h3]
        · rw [if_neg h3]
          by_cases h4 : (w.snake.headD (0, 0)).2 < 0
          · rw [if_pos h4]
          · exact absurd ⟨by omega, by omega, by omega, by omega⟩ hP

lemma checkIfHitItself_iff (w : World) :
    checkIfHitItself w = true ↔ headPos w ∈ w.snake.tail := by
  simp [checkIfHitItself, headPos]

lemma checkIfWon_iff (w : World) :
    checkIfWon w = true ↔ w.snake.length = 225 := by
  simp [checkIfWon]

/-- C6: a successful `step` returns `done = true` exactly when, on the
post-movement post-growth world, the head is off the grid, or the head
coincides with another body segment, or the body length is 225; and a done
step always returns reward 0.0 regardless of which condition fired. -/
theorem step_done_iff_terminal (fuel : ℕ) (gen : ℕ → Pos) (a : ℤ) (w : World)
    (r : StepResult) (h : stepGame fuel gen a w = .ok r) :
    (r.done = true ↔
      (¬(0 ≤ (headPos r.world).1 ∧ (headPos r.world).1 ≤ 14 ∧
         0 ≤ (headPos r.world).2 ∧ (headPos r.world).2 ≤ 14) ∨
       headPos r.world ∈ r.world.snake.tail ∨
       r.world.snake.length = 225)) ∧
    (r.done = true → r.reward = 0) := by
  obtain ⟨-, -, -, hdone, -, hrew⟩ := stepGame_ok fuel gen a w r h
  constructor
  · rw [hdone]
    simp only [Bool.or_eq_true]
    rw [checkIfHitWall_iff, checkIfHitItself_iff, checkIfWon_iff]
    tauto
  · intro hd
    rw [hrew, hd]
    simp

/-- The result of a concrete first step from the reset state, used to
instantiate hypotheses about successful steps. -/
def rStep0 : StepResult :=
  (stepGame 15 genZero 1 initialWorld).toOption.getD ⟨initialWorld, [], 0, false, false⟩

/-- Witness for `step_done_iff_terminal` at the first step from reset. -/
theorem step_done_iff_terminal_check :
    stepGame 15 genZero 1 initialWorld = .ok rStep0 ∧
    ((rStep0.done = true ↔
      (¬(0 ≤ (headPos rStep0.world).1 ∧ (headPos rStep0.world).1 ≤ 14 ∧
         0 ≤ (headPos rStep0.world).2 ∧ (headPos rStep0.world).2 ≤ 14) ∨
       headPos rStep0.world ∈ rStep0.world.snake.tail ∨
       rStep0.world.snake.length = 225)) ∧
    (rStep0.done = true → rStep0.reward = 0)) :=
  ⟨rfl, step_done_iff_terminal 15 genZero 1 initialWorld rStep0 rfl⟩

/-! ### The sensor array -/

lemma castRayGo_succ (hit : Pos → Bool) (dy dx : ℤ) (f : ℕ) (p : Pos) (d : ℕ) :
    castRayGo hit dy dx (f + 1) p d =
      if hit (p.1 + dy, p.2 + dx) then d
      else if f = 0 then d
      else castRayGo hit dy dx f (p.1 + dy, p.2 + dx) (d + 1) := rfl

lemma castRayGo_le (hit : Pos → Bool) (dy dx : ℤ) (f : ℕ) :
    ∀ (p : Pos) (d : ℕ), castRayGo hit dy dx (f + 1) p d ≤ d + f := by
  induction f with
  | zero =>
      intro p d
      rw [castRayGo_succ]
      split
      · omega
      · rw [if_pos rfl]
        omega
  | succ f ih =>
      intro p d
      rw [castRayGo_succ]
      split
      · omega
      · rw [if_neg (by omega)]
        have h := ih (p.1 + dy, p.2 + dx) (d + 1)
        omega

/-- Every ray distance is in [0, 14]: the loop counter runs over
`range(15)`. -/
lemma castRay_le_14 (hit : Pos → Bool) (origin : Pos) (dy dx : ℤ) :
    castRay hit origin dy dx ≤ 14 := by
  have h := castRayGo_le hit dy dx 14 origin 0
  simpa [castRay] using h

lemma mem_castRays_le (hit : Pos → Bool) (origin : Pos) :
    ∀ x ∈ castRays hit origin, x ≤ 14 := by
  intro x hx
  simp only [castRays, List.mem_map] at hx
  obtain ⟨dp, -, rfl⟩ := hx
  exact castRay_le_14 hit origin dp.1 dp.2

lemma length_castRays (hit : Pos → Bool) (origin : Pos) :
    (castRays hit origin).length = 8 := by
  simp [castRays, rayDirs]

lemma length_rotate (l : List ℕ) (n : ℕ) : (rotate l n).length = l.length := by
  simp only [rotate, List.length_append, List.length_drop, List.length_take]
  omega

lemma mem_rotate (l : List ℕ) (n : ℕ) (x : ℕ) (h : x ∈ rotate l n) : x ∈ l := by
  rcases List.mem_append.mp h with h | h
  · exact List.drop_subset _ _ h
  · exact List.take_subset _ _ h

lemma length_rotateObs (d : ℤ) (l : List ℕ) : (rotateObs d l).length = l.length := by
  simp only [rotateObs]
  split
  · rfl
  · split
    · exact length_rotate l 2
    · split
      · exact length_rotate l 4
      · exact length_rotate l 6

lemma mem_rotateObs (d : ℤ) (l : List ℕ) (x : ℕ) (h : x ∈ rotateObs d l) : x ∈ l := by
  simp only [rotateObs] at h
  split at h
  · exact h
  · split at h
    · exact mem_rotate l 2 x h
    · split at h
      · exact mem_rotate l 4 x h
      · exact mem_rotate l 6 x h

/-- Head element of a rotated list: `rotate` brings slot `length − n`
to the front. -/
lemma rotate_getD_zero (l : List ℕ) (n : ℕ) (h1 : 1 ≤ n) (h2 : n ≤ l.length) :
    (rotate l n).getD 0 0 = l.getD (l.length - n) 0 := by
  simp only [rotate]
  rw [List.getD_eq_getElem?_getD, List.getD_eq_getElem?_getD, List.getElem?_append,
      if_pos (by simp only [List.length_drop]; omega), List.getElem?_drop]
  norm_num

/-- Modelled from the spec: the index, in the fixed clockwise ray order
(up first), of the ray pointing along the snake's current movement
direction; heading 4 moves like heading 3. -/
def forwardRayIndex (d : ℤ) : ℕ :=
  if d = 0 then 0 else if d = 1 then 2 else if d = 2 then 4 else 6

/-- C2 (amended): after the egocentric rotation, index 0 of the rotated
8-ray vector holds the raw ray at index
`(forwardRayIndex d + (0 if d ∈ {0,2} else 4)) % 8` — i.e. the forward ray
for headings 0 and 2, but the ray pointing opposite to the movement
direction for headings 1, 3 and 4.  The second conjunct ties
`forwardRayIndex` to the movement engine: the head displacement of heading
`d` is exactly the ray offset stored at that index. -/
theorem rotateObs_head_index (d : ℤ) (l : List ℕ)
    (hd : d = 0 ∨ d = 1 ∨ d = 2 ∨ d = 3 ∨ d = 4) (hl : l.length = 8) :
    (rotateObs d l).getD 0 0 =
      l.getD ((forwardRayIndex d + (if d = 0 ∨ d = 2 then 0 else 4)) % 8) 0 ∧
    (∀ p : Pos, moveHead d p =
       (p.1 + (rayDirs.getD (forwardRayIndex d) (0, 0)).1,
        p.2 + (rayDirs.getD (forwardRayIndex d) (0, 0)).2)) := by
  have h2 : ∀ n, 1 ≤ n → n ≤ 8 → (rotate l n).getD 0 0 = l.getD (8 - n) 0 := by
    intro n hn1 hn2
    rw [rotate_getD_zero l n hn1 (by omega), hl]
  rcases hd with rfl | rfl | rfl | rfl | rfl
  · refine ⟨by norm_num [rotateObs, forwardRayIndex], fun p => ?_⟩
    simp [moveHead, rayDirs, forwardRayIndex, Prod.ext_iff, sub_eq_add_neg]
  · refine ⟨?_, fun p => ?_⟩
    · rw [show rotateObs 1 l = rotate l 2 by norm_num [rotateObs],
          h2 2 (by norm_num) (by norm_num)]
      norm_num [forwardRayIndex]
    · simp [moveHead, rayDirs, forwardRayIndex, Prod.ext_iff, sub_eq_add_neg]
  · refine ⟨?_, fun p => ?_⟩
    · rw [show rotateObs 2 l = rotate l 4 by norm_num [rotateObs],
          h2 4 (by norm_num) (by norm_num)]
      norm_num [forwardRayIndex]
    · simp [moveHead, rayDirs, forwardRayIndex, Prod.ext_iff, sub_eq_add_neg]
  · refine ⟨?_, fun p => ?_⟩
    · rw [show rotateObs 3 l = rotate l 6 by norm_num [rotateObs],
          h2 6 (by norm_num) (by norm_num)]
      norm_num [forwardRayIndex]
    · simp [moveHead, rayDirs, forwardRayIndex, Prod.ext_iff, sub_eq_add_neg]
  · refine ⟨?_, fun p => ?_⟩
    · rw [show rotateObs 4 l = rotate l 6 by norm_num [rotateObs],
          h2 6 (by norm_num) (by norm_num)]
      norm_num [forwardRayIndex]
    · simp [moveHead, rayDirs, forwardRayIndex, Prod.ext_iff, sub_eq_add_neg]

/-- Witness for `rotateObs_head_index` at heading 1 and the identity ray
vector, plus the movement link at the point (5, 5). -/
theorem rotateObs_head_index_check :
    (rotateObs 1 [0, 1, 2, 3, 4, 5, 6, 7]).getD 0 0 =
      ([0, 1, 2, 3, 4, 5, 6, 7] : List ℕ).getD
        ((forwardRayIndex 1 + (if (1 : ℤ) = 0 ∨ (1 : ℤ) = 2 then 0 else 4)) % 8) 0 ∧
    moveHead 1 (5, 5) =
      ((5 : ℤ) + (rayDirs.getD (forwardRayIndex 1) (0, 0)).1,
       (5 : ℤ) + (rayDirs.getD (forwardRayIndex 1) (0, 0)).2) :=
  ⟨(rotateObs_head_index 1 [0, 1, 2, 3, 4, 5, 6, 7] (by norm_num) (by decide)).1,
   (rotateObs_head_index 1 [0, 1, 2, 3, 4, 5, 6, 7] (by norm_num) (by decide)).2 (5, 5)⟩

/-- C2 counterexample: with heading 1 (Right) the rotated apple-ray vector
does not put the forward ray at index 0.  Body `[(7,7),(7,6)]`, apple at
`(7,9)`: the ray cast along the movement offset (0, 1) — the raw ray at
`forwardRayIndex 1` — reports distance 1, but index 0 of the observation
the game produces reports 14 (it is the backward-pointing ray). -/
theorem rotated_head_not_forward_ray :
    (appleRayObservation ⟨[(7, 7), (7, 6)], (7, 9), 1⟩).getD 0 0 = 14 ∧
    castRay (appleHit ⟨[(7, 7), (7, 6)], (7, 9), 1⟩)
        (headPos ⟨[(7, 7), (7, 6)], (7, 9), 1⟩) 0 1 = 1 ∧
    (castRays (appleHit ⟨[(7, 7), (7, 6)], (7, 9), 1⟩)
        (headPos ⟨[(7, 7), (7, 6)], (7, 9), 1⟩)).getD (forwardRayIndex 1) 0 = 1 ∧
    (14 : ℕ) ≠ 1 :=
  ⟨rfl, rfl, rfl, by decide⟩

/-! ### The observation vector -/

lemma length_appleRayObservation (w : World) : (appleRayObservation w).length = 8 := by
  rw [appleRayObservation, length_rotateObs, length_castRays]

lemma length_wallRayObservation (w : World) : (wallRayObservation w).length = 8 := by
  rw [wallRayObservation, length_rotateObs, length_castRays]

lemma length_snakePieceRayObservation (w : World) :
    (snakePieceRayObservation w).length = 8 := by
  rw [snakePieceRayObservation, length_rotateObs, length_castRays]

/-- C9 (amended): every observation is `[body length]` followed by the 8
apple rays, the 8 wall rays and the 8 body rays (25 entries), every ray
entry is in [0, 14], and the leading entry equals the body length — with no
upper bound of 225 on that length in general. -/
theorem generateState_layout_bounds (w : World) :
    generateState w =
      w.snake.length ::
        (appleRayObservation w ++ wallRayObservation w ++ snakePieceRayObservation w) ∧
    (generateState w).length = 25 ∧
    (generateState w).getD 0 0 = w.snake.length ∧
    (∀ x ∈ (generateState w).tail, x ≤ 14) ∧
    (∀ (fuel : ℕ) (gen : ℕ → Pos) (a : ℤ) (r : StepResult),
       stepGame fuel gen a w = .ok r → r.obs = generateState r.world) ∧
    resetGame.2 = generateState resetGame.1 := by
  refine ⟨rfl, ?_, rfl, ?_, ?_, rfl⟩
  · simp [generateState, length_appleRayObservation, length_wallRayObservation,
      length_snakePieceRayObservation]
  · intro x hx
    simp only [generateState, List.tail_cons] at hx
    rcases List.mem_append.mp hx with hx | hx
    · rcases List.mem_append.mp hx with hx | hx
      · exact mem_castRays_le _ _ x (mem_rotateObs _ _ x hx)
      · exact mem_castRays_le _ _ x (mem_rotateObs _ _ x hx)
    · exact mem_castRays_le _ _ x (mem_rotateObs _ _ x hx)
  · intro fuel gen a r h
    exact (stepGame_ok fuel gen a w r h).2.2.1

/-- Witness for `generateState_layout_bounds` at the reset world, with the
ray-bound hypothesis discharged at the entry 14 and the step hypothesis at
the concrete first step. -/
theorem generateState_layout_bounds_check :
    (generateState initialWorld).length = 25 ∧
    (14 : ℕ) ≤ 14 ∧
    rStep0.obs = generateState rStep0.world :=
  ⟨(generateState_layout_bounds initialWorld).2.1,
   (generateState_layout_bounds initialWorld).2.2.2.1 14 (by decide),
   (generateState_layout_bounds initialWorld).2.2.2.2.1 15 genZero 1 rStep0 rfl⟩

/-- A respawn stream that keeps landing on the moved-up body 223 times
before finally landing off it. -/
def genGrow : ℕ → Pos := fun k => if k < 223 then (7, 10) else (3, 3)

lemma ateAppleAux_succ (f : ℕ) (snake : List Pos) (apple : Pos) (gen : ℕ → Pos) (k i : ℕ) :
    ateAppleAux (f + 1) snake apple gen k i =
      if i < snake.length then
        if snake.getD i (0, 0) = apple then
          ateAppleAux f (snake ++ [snake.getLastD (0, 0)]) (gen k) gen (k + 1) (i + 1)
        else ateAppleAux f snake apple gen k (i + 1)
      else some (snake, apple, k) := rfl

lemma getD_cons_replicate (a b : Pos) (m j : ℕ) (h1 : 1 ≤ j) (h2 : j ≤ m) :
    (a :: List.replicate m b).getD j (0, 0) = b := by
  have hlen : j < (a :: List.replicate m b).length := by
    simp only [List.length_cons, List.length_replicate]
    omega
  rw [List.getD_eq_getElem _ _ hlen]
  cases j with
  | zero => omega
  | succ j => simp [List.getElem_cons_succ, List.getElem_replicate]

lemma getLastD_cons_replicate (a b : Pos) (m : ℕ) (h : 1 ≤ m) :
    (a :: List.replicate m b).getLastD (0, 0) = b := by
  obtain ⟨m', rfl⟩ : ∃ m', m = m' + 1 := ⟨m - 1, by omega⟩
  rw [List.getLastD_eq_getLast?, List.getLast?_eq_getElem?]
  simp only [List.length_cons, List.length_replicate, Nat.add_sub_cancel]
  rw [List.getElem?_cons_succ]
  simp [List.getElem?_eq_getElem, List.getElem_replicate]

/-- Under `genGrow`, the growth loop keeps appending a `(7, 10)` copy until
225 of them stand behind the head, then the freshly spawned `(3, 3)` misses
the body and the loop runs out.  The loop state at `224 - n` remaining
iterations to the first miss: `n` appends still to come. -/
lemma genGrow_loop (n : ℕ) :
    ∀ (hn : n ≤ 223) (f : ℕ) (hf : n + 5 ≤ f),
      ateAppleAux f ((7, 11) :: List.replicate (225 - n) (7, 10)) (genGrow (223 - n))
          genGrow (224 - n) (224 - n) =
        some ((7, 11) :: List.replicate 225 (7, 10), (3, 3), 224) := by
  induction n with
  | zero =>
      intro _ f hf
      norm_num
      have hg : genGrow 223 = (3, 3) := by norm_num [genGrow]
      rw [hg]
      apply ateAppleAux_no_hit
      · simp only [List.length_cons, List.length_replicate]
        omega
      · intro j hj1 hj2 hEq
        simp only [List.length_cons, List.length_replicate] at hj2
        rw [getD_cons_replicate _ _ _ _ (by omega) (by omega)] at hEq
        exact absurd hEq (by decide)
  | succ n ih =>
      intro hn f hf
      obtain ⟨f', rfl⟩ : ∃ f', f = f' + 1 := ⟨f - 1, by omega⟩
      have e1 : 224 - (n + 1) = 223 - n := by omega
      have e2 : 225 - (n + 1) = 224 - n := by omega
      have e3 : 223 - (n + 1) = 222 - n := by omega
      rw [e1, e2, e3]
      rw [ateAppleAux_succ]
      rw [if_pos (by simp only [List.length_cons, List.length_replicate]; omega)]
      rw [getD_cons_replicate _ _ _ _ (by omega) (by omega)]
      have hg : genGrow (222 - n) = (7, 10) := by
        simp only [genGrow]
        rw [if_pos (by omega)]
      rw [hg, if_pos rfl]
      have h224 : 1 ≤ 224 - n := by omega
      have hlast : (((7, 11) : Pos) :: List.replicate (224 - n) ((7, 10) : Pos)).getLastD
          (0, 0) = ((7, 10) : Pos) :=
        getLastD_cons_replicate (7, 11) (7, 10) (224 - n) h224
      rw [hlast]
      have happ : (((7, 11) : Pos) :: List.replicate (224 - n) ((7, 10) : Pos)) ++
          [((7, 10) : Pos)] = ((7, 11) : Pos) :: List.replicate (225 - n) ((7, 10) : Pos) := by
        rw [List.cons_append, ← List.replicate_succ']
        congr 2
        omega
      rw [happ]
      have e4 : 223 - n + 1 = 224 - n := by omega
      rw [e4]
      exact ih (by omega) f' (by omega)

/-- The whole growth phase of the seventh step: head `(7, 11)` sits on the
apple, and 224 more appends follow before the spawned `(3, 3)` misses. -/
lemma checkIfAteApple_genGrow :
    checkIfAteApple 300 [(7, 11), (7, 10)] (7, 11) genGrow =
      some ((7, 11) :: List.replicate 225 (7, 10), (3, 3), 224) := by
  show ateAppleAux (299 + 1) [(7, 11), (7, 10)] (7, 11) genGrow 0 0 = _
  rw [ateAppleAux_succ]
  rw [if_pos (by norm_num),
      if_pos (show ([(7, 11), (7, 10)] : List Pos).getD 0 (0, 0) = (7, 11) from rfl)]
  have h := genGrow_loop 223 (by norm_num) 299 (by norm_num)
  norm_num at h
  exact h

/-- Forward evaluation of a valid `step` call whose heading update and
growth phase are known. -/
lemma stepGame_eq_ok (fuel : ℕ) (gen : ℕ → Pos) (a : ℤ) (w : World)
    (ha : a = 0 ∨ a = 1 ∨ a = 2) (d : ℤ) (hd : relativeToGlobalDirection w.dir a = d)
    (s2 : List Pos) (a2 : Pos) (k2 : ℕ)
    (h : checkIfAteApple fuel (moveSnake w.snake d) w.apple gen = some (s2, a2, k2)) :
    stepGame fuel gen a w =
      .ok ⟨⟨s2, a2, d⟩,
           generateState ⟨s2, a2, d⟩,
           (if ((checkIfHitWall ⟨s2, a2, d⟩ || checkIfHitItself ⟨s2, a2, d⟩) ||
                checkIfWon ⟨s2, a2, d⟩) = false
            then (if ateAppleReturnValue = true then (10 : ℚ) else 1) else 0),
           ((checkIfHitWall ⟨s2, a2, d⟩ || checkIfHitItself ⟨s2, a2, d⟩) ||
            checkIfWon ⟨s2, a2, d⟩),
           ((checkIfHitWall ⟨s2, a2, d⟩ || checkIfHitItself ⟨s2, a2, d⟩) ||
            checkIfWon ⟨s2, a2, d⟩)⟩ := by
  simp only [stepGame]
  rw [if_pos ha, hd, h]

/-- The seventh step in full: movement eats the apple, the growth loop blows
the body up to 226 segments, and the step still returns `done = false`. -/
lemma stepGame_genGrow :
    stepGame 300 genGrow 1 ⟨[(7, 10), (7, 9)], (7, 11), 1⟩ =
      .ok ⟨⟨(7, 11) :: List.replicate 225 (7, 10), (3, 3), 1⟩,
           generateState ⟨(7, 11) :: List.replicate 225 (7, 10), (3, 3), 1⟩,
           1, false, false⟩ := by
  have h2 : checkIfAteApple 300 (moveSnake [(7, 10), (7, 9)] 1) (7, 11) genGrow =
      some ((7, 11) :: List.replicate 225 (7, 10), (3, 3), 224) := by
    rw [show moveSnake [(7, 10), (7, 9)] 1 = [(7, 11), (7, 10)] from rfl]
    exact checkIfAteApple_genGrow
  have hmain := stepGame_eq_ok 300 genGrow 1 ⟨[(7, 10), (7, 9)], (7, 11), 1⟩
    (by norm_num) 1 rfl ((7, 11) :: List.replicate 225 (7, 10)) (3, 3) 224 h2
  have hself : checkIfHitItself ⟨(7, 11) :: List.replicate 225 (7, 10), (3, 3), 1⟩ =
      false := by
    simp only [checkIfHitItself]
    apply decide_eq_false
    intro hmem
    have hmem2 : ((7, 11) : Pos) ∈ List.replicate 225 ((7, 10) : Pos) := hmem
    exact absurd (List.mem_replicate.mp hmem2).2 (by decide)
  have hwon : checkIfWon ⟨(7, 11) :: List.replicate 225 (7, 10), (3, 3), 1⟩ = false := by
    simp only [checkIfWon]
    apply decide_eq_false
    intro hlen
    have hlen2 : ((7, 11) :: List.replicate 225 ((7, 10) : Pos)).length = 15 * 15 := hlen
    rw [List.length_cons, List.length_replicate] at hlen2
    omega
  have hwall : checkIfHitWall ⟨(7, 11) :: List.replicate 225 (7, 10), (3, 3), 1⟩ =
      false := rfl
  rw [hmain]
  simp only [hself, hwon, hwall, Bool.or_false, Bool.false_or]
  norm_num [ateAppleReturnValue]

/-- C9 counterexample: a reachable observation whose length field exceeds
225.  Six straight steps from reset bring the head next to the apple; the
seventh step eats it, and with `genGrow` the growth loop appends 224
segments in that single tick (each respawned apple lands on the body), so
the returned observation's length field is 226 > 225 while `done` is still
false (the win check tests equality with 225 exactly). -/
theorem observation_length_field_can_exceed_225 :
    (stepGame 15 genZero 1 initialWorld).toOption.map
        (fun r => (r.world, r.done)) =
      some (⟨[(7, 5), (7, 4)], (7, 11), 1⟩, false) ∧
    (stepGame 15 genZero 1 ⟨[(7, 5), (7, 4)], (7, 11), 1⟩).toOption.map
        (fun r => (r.world, r.done)) =
      some (⟨[(7, 6), (7, 5)], (7, 11), 1⟩, false) ∧
    (stepGame 15 genZero 1 ⟨[(7, 6), (7, 5)], (7, 11), 1⟩).toOption.map
        (fun r => (r.world, r.done)) =
      some (⟨[(7, 7), (7, 6)], (7, 11), 1⟩, false) ∧
    (stepGame 15 genZero 1 ⟨[(7, 7), (7, 6)], (7, 11), 1⟩).toOption.map
        (fun r => (r.world, r.done)) =
      some (⟨[(7, 8), (7, 7)], (7, 11), 1⟩, false) ∧
    (stepGame 15 genZero 1 ⟨[(7, 8), (7, 7)], (7, 11), 1⟩).toOption.map
        (fun r => (r.world, r.done)) =
      some (⟨[(7, 9), (7, 8)], (7, 11), 1⟩, false) ∧
    (stepGame 15 genZero 1 ⟨[(7, 9), (7, 8)], (7, 11), 1⟩).toOption.map
        (fun r => (r.world, r.done)) =
      some (⟨[(7, 10), (7, 9)], (7, 11), 1⟩, false) ∧
    stepGame 300 genGrow 1 ⟨[(7, 10), (7, 9)], (7, 11), 1⟩ =
      .ok ⟨⟨(7, 11) :: List.replicate 225 (7, 10), (3, 3), 1⟩,
           generateState ⟨(7, 11) :: List.replicate 225 (7, 10), (3, 3), 1⟩,
           1, false, false⟩ ∧
    (generateState ⟨(7, 11) :: List.replicate 225 (7, 10), (3, 3), 1⟩).getD 0 0 = 226 ∧
    ¬((226 : ℕ) ≤ 225) := by
  refine ⟨rfl, rfl, rfl, rfl, rfl, rfl, stepGame_genGrow, ?_, by decide⟩
  have h1 : (generateState ⟨(7, 11) :: List.replicate 225 (7, 10), (3, 3), 1⟩).getD 0 0 =
      ((7, 11) :: List.replicate 225 ((7, 10) : Pos)).length := rfl
  rw [h1, List.length_cons, List.length_replicate]

end SnakeGame
